import Mathlib

/-!
Verification of the EZCAD bridge orchestration logic (`ezcad_bridge.py`).

The Python class `EZCADBridge` is embedded shallowly:

* the filesystem (`os.path.exists`) is a function `fs : String → Bool`;
* `subprocess.Popen` is a function `launch : Nat → List String → LaunchOutcome`
  (the `Nat` is the invocation counter, so successive invocations of the same
  command may behave differently); a `LaunchOutcome.exn` models `Popen`
  raising an exception (executable missing, permission denied);
* the mutable object state (`self.current_ezd_file`) plus the trace of
  commands handed to the process launcher is the structure `St`;
* Python strings are Lean `String`s, with the character-level helpers below
  reimplementing `in`, `split(sep, 1)`, `strip()`, `lower()` and
  `splitlines()` (lower-casing is ASCII, which covers every phrase the code
  matches on);
* a batch data item (a Python dict, or a value whose processing raises) is
  the inductive `Item`.
-/

namespace EzcadBridge

/-- Python list-of-characters test for whether `p` occurs at the start. -/
def beginsWith : List Char → List Char → Bool
  | [], _ => true
  | _ :: _, [] => false
  | a :: as, b :: bs => a == b && beginsWith as bs

/-- Python substring containment (`pat in s`) on character lists. -/
def containsL (pat : List Char) : List Char → Bool
  | [] => beginsWith pat []
  | c :: rest => beginsWith pat (c :: rest) || containsL pat rest

/-- Python `s.split(sep, 1)` on character lists: the text before and after
the first occurrence of `sep`, or `none` when `sep` does not occur. -/
def splitOnceL (sep : List Char) : List Char → Option (List Char × List Char)
  | [] => none
  | c :: rest =>
    if beginsWith sep (c :: rest) then some ([], (c :: rest).drop sep.length)
    else match splitOnceL sep rest with
      | some (pre, post) => some (c :: pre, post)
      | none => none

/-- Python `s.strip()` on character lists: drop whitespace at both ends. -/
def stripL (s : List Char) : List Char :=
  ((s.dropWhile Char.isWhitespace).reverse.dropWhile Char.isWhitespace).reverse

/-- Python `s.splitlines()`: split on `\n`, `\r\n` and `\r`, with no empty
trailing line. The accumulator holds the current line reversed. -/
def splitLinesAux : List Char → List Char → List (List Char)
  | acc, [] => if acc.isEmpty then [] else [acc.reverse]
  | acc, '\r' :: '\n' :: rest => acc.reverse :: splitLinesAux [] rest
  | acc, '\n' :: rest => acc.reverse :: splitLinesAux [] rest
  | acc, '\r' :: rest => acc.reverse :: splitLinesAux [] rest
  | acc, c :: rest => splitLinesAux (c :: acc) rest

/-- Python `s.splitlines()` on character lists. -/
def splitLinesL (s : List Char) : List (List Char) :=
  splitLinesAux [] s

/-- Python `pat in s` on strings. -/
def strContains (s pat : String) : Bool :=
  containsL pat.data s.data

/-- Python `s.lower()` (ASCII letters only, which covers the matched phrases). -/
def lowerStr (s : String) : String :=
  ⟨s.data.map Char.toLower⟩

/-- Outcome of one `subprocess.Popen` attempt: either the process ran and
produced `stdout`, `stderr` and a return code, or `Popen` itself raised an
exception carrying a message. -/
inductive LaunchOutcome where
  | ok : String → String → Int → LaunchOutcome
  | exn : String → LaunchOutcome
deriving DecidableEq, Repr

/-- The dict returned by `EZCADBridge._run_bridge_command`. -/
structure BridgeResult where
  output : String
  error : String
  return_code : Int
  success : Bool
deriving DecidableEq, Repr

/-- The external environment: `fs path` is `os.path.exists(path)`, and
`launch n args` is the behaviour of the `n`-th process launch when handed
the argument list `args` (the bridge executable path itself is elided from
the argument list, being a fixed prefix). -/
structure World where
  fs : String → Bool
  launch : Nat → List String → LaunchOutcome

/-- The mutable state of an `EZCADBridge` object together with the
observable trace of process launches: `ctr` counts launch attempts,
`invoked` records every argument list handed to the launcher, and
`current_ezd_file` is the field of the same name. -/
structure St where
  ctr : Nat
  invoked : List (List String)
  current_ezd_file : Option String
deriving DecidableEq, Repr

/-- `EZCADBridge._run_bridge_command`: launch the process and package the
outcome; an exception from the launch is caught and converted into a
result with empty output, the exception message as error, code `-1`. -/
def run_bridge_command (w : World) (s : St) (args : List String) :
    BridgeResult × St :=
  let s' : St :=
    { s with ctr := s.ctr + 1, invoked := s.invoked ++ [args] }
  match w.launch s.ctr args with
  | .ok out err rc =>
    ({ output := out, error := err, return_code := rc, success := rc == 0 }, s')
  | .exn msg =>
    ({ output := "", error := msg, return_code := -1, success := false }, s')

/-- `EZCADBridge.open_ezd_file`. -/
def open_ezd_file (w : World) (s : St) (ezd_file_path : String) : Bool × St :=
  if w.fs ezd_file_path = false then (false, s)
  else
    let rs := run_bridge_command w s ["open", ezd_file_path]
    if strContains (lowerStr rs.1.output) "successfully" then
      (true, { rs.2 with current_ezd_file := some ezd_file_path })
    else (false, rs.2)

/-- `EZCADBridge.update_text`. -/
def update_text (w : World) (s : St) (entity_name new_text : String) :
    Bool × St :=
  match s.current_ezd_file with
  | none => (false, s)
  | some _ =>
    let rs := run_bridge_command w s ["update", entity_name, new_text]
    (strContains (lowerStr rs.1.output) "updated successfully", rs.2)

/-- The command list built by `EZCADBridge.mark`: Python `if entity_name:`
is false for both `None` and the empty string, so both yield the bare
`mark` command. -/
def mark_command (entity_name : Option String) : List String :=
  match entity_name with
  | some n => if n = "" then ["mark"] else ["mark", n]
  | none => ["mark"]

/-- `EZCADBridge.mark`. -/
def mark (w : World) (s : St) (entity_name : Option String) : Bool × St :=
  match s.current_ezd_file with
  | none => (false, s)
  | some _ =>
    let rs := run_bridge_command w s (mark_command entity_name)
    (strContains (lowerStr rs.1.output) "completed", rs.2)

/-- `EZCADBridge.red_light`; the arguments stand for `str(x)` and `str(y)`. -/
def red_light (w : World) (s : St) (x y : String) : Bool × St :=
  match s.current_ezd_file with
  | none => (false, s)
  | some _ =>
    let rs := run_bridge_command w s ["red", x, y]
    (strContains (lowerStr rs.1.output) "positioned successfully", rs.2)

/-- `EZCADBridge.save_ezd_file`. -/
def save_ezd_file (w : World) (s : St) (output_path : String) : Bool × St :=
  match s.current_ezd_file with
  | none => (false, s)
  | some _ =>
    let rs := run_bridge_command w s ["save", output_path]
    (strContains (lowerStr rs.1.output) "saved successfully", rs.2)

/-- The per-line extraction inside `EZCADBridge.list_entities`: strip the
line; if it starts with `[` and contains `]`, take the text after the first
`]`, strip it, split once on `(Type:`, and strip the part before the split. -/
def parse_line (line : List Char) : Option (List Char) :=
  let l := stripL line
  if beginsWith ['['] l && containsL [']'] l then
    match splitOnceL [']'] l with
    | some (_, afterBracket) =>
      let entity_info := stripL afterBracket
      let namePart :=
        match splitOnceL ("(Type:".data) entity_info with
        | some (pre, _) => pre
        | none => entity_info
      some (stripL namePart)
    | none => none
  else none

/-- The output parsing loop of `EZCADBridge.list_entities` as a pure
function of the captured output text. -/
def parse_entities (out : String) : List String :=
  ((splitLinesL out.data).filterMap parse_line).map (fun cs => ⟨cs⟩)

/-- Text before the first occurrence of `sep`, or the whole list when
`sep` does not occur. -/
def beforeFirst (sep s : List Char) : List Char :=
  match splitOnceL sep s with
  | some (pre, _) => pre
  | none => s

/-- The entity-line rule in the words of the specification, amended only to
strip the line first: a line whose stripped form starts with `[` and
contains `]` contributes the trimmed text standing before the first
`(Type:` of what follows the first `]`; any other line contributes
nothing. Unlike `parse_line`, the text after `]` is not pre-stripped. -/
def spec_line (line : List Char) : Option (List Char) :=
  let l := stripL line
  if beginsWith ['['] l && containsL [']'] l then
    match splitOnceL [']'] l with
    | some (_, afterBracket) =>
      some (stripL (beforeFirst ("(Type:".data) afterBracket))
    | none => none
  else none

/-- The specification's description of the whole list parse. -/
def parse_entities_spec (out : String) : List String :=
  ((splitLinesL out.data).filterMap spec_line).map (fun cs => ⟨cs⟩)

/-- `EZCADBridge.list_entities`. -/
def list_entities (w : World) (s : St) : List String × St :=
  match s.current_ezd_file with
  | none => ([], s)
  | some _ =>
    let rs := run_bridge_command w s ["list"]
    (parse_entities rs.1.output, rs.2)

/-- One element of `data_items` in `EZCADBridge.process_data`. A Python
dict is an association list of field name and text value (`str(text_value)`
already applied). `raises kvs msg` models an item whose processing raises
an exception inside the per-row `try` block after the fields `kvs` have
been handled (for example `data_item.items()` or `str(text_value)` failing
on a later field): the exception is caught by the `except` clause. -/
inductive Item where
  | good : List (String × String) → Item
  | raises : List (String × String) → String → Item
deriving DecidableEq, Repr

/-- The inner `for entity_name, text_value in data_item.items()` loop of
`process_data`: fields named `id` are skipped, fields absent from
`available_entities` are skipped with a warning, and `update_success`
(the accumulator `flag`) is cleared by any failing `update_text` call. -/
def update_loop (w : World) (s : St) (avail : List String) :
    List (String × String) → Bool → Bool × St
  | [], flag => (flag, s)
  | (entity_name, text_value) :: rest, flag =>
    if entity_name = "id" then update_loop w s avail rest flag
    else if avail.contains entity_name then
      let rs := update_text w s entity_name text_value
      update_loop w rs.2 avail rest (flag && rs.1)
    else update_loop w s avail rest flag

/-- The body of the per-item `try` block in `process_data`: returns whether
the item counts as a success. An item that raises is caught and counts as
an error (`false`), whatever invocations happened before the exception. -/
def process_item (w : World) (s : St) (avail : List String) :
    Item → Bool × St
  | .good kvs =>
    let rs := update_loop w s avail kvs true
    if rs.1 then mark w rs.2 none
    else (false, rs.2)
  | .raises kvs _ =>
    let rs := update_loop w s avail kvs true
    (false, rs.2)

/-- The `for i, data_item in enumerate(data_items)` loop of `process_data`,
returning the final `success` and `errors` counters. -/
def process_items (w : World) (s : St) (avail : List String) :
    List Item → Nat × Nat × St
  | [] => (0, 0, s)
  | item :: rest =>
    let rs := process_item w s avail item
    let rest' := process_items w rs.2 avail rest
    if rs.1 then (rest'.1 + 1, rest'.2.1, rest'.2.2)
    else (rest'.1, rest'.2.1 + 1, rest'.2.2)

/-- The value returned by `process_data`: either one of the two early-error
dicts (`{"success": False, "error": ...}`), or the statistics dict with
`total`, `success` and `errors` (the wall-clock fields are not modelled). -/
inductive ProcResult where
  | err : String → ProcResult
  | stats : Nat → Nat → Nat → ProcResult
deriving DecidableEq, Repr

/-- `EZCADBridge.process_data`. -/
def process_data (w : World) (s : St) (ezd_template : String)
    (data_items : List Item) (output_path : Option String) :
    ProcResult × St :=
  if w.fs ezd_template = false then (.err "Template file not found", s)
  else
    let op := open_ezd_file w s ezd_template
    if op.1 = false then (.err "Failed to open template file", op.2)
    else
      let le := list_entities w op.2
      let pr := process_items w le.2 le.1 data_items
      let s4 :=
        match output_path with
        | some p => (save_ezd_file w pr.2.2 p).2
        | none => pr.2.2
      (.stats data_items.length pr.1 pr.2.1, s4)

/-! Concrete environments and states used to instantiate the theorems. -/

/-- A fresh bridge object: no launches yet, no file open. -/
def st0 : St := { ctr := 0, invoked := [], current_ezd_file := none }

/-- A bridge object with a session already open on `cur.ezd`. -/
def stOpen : St := { ctr := 0, invoked := [], current_ezd_file := some "cur.ezd" }

/-- Every path exists and every launch reports success phrases. -/
def wAllOk : World :=
  { fs := fun _ => true,
    launch := fun _ _ => .ok "Opened successfully; marking completed" "" 0 }

/-- Every path exists but every launch attempt raises. -/
def wExn : World :=
  { fs := fun _ => true, launch := fun _ _ => .exn "boom" }

/-- Every path exists but the engine output matches no success phrase. -/
def wNope : World :=
  { fs := fun _ => true, launch := fun _ _ => .ok "nope" "" 0 }

/-- No path exists on the filesystem. -/
def wMissing : World :=
  { fs := fun _ => false,
    launch := fun _ _ => .ok "Opened successfully" "" 0 }

/-- Both branches of `run_bridge_command` return the same updated state:
the counter advances and the argument list is appended to the trace. -/
theorem run_bridge_command_snd (w : World) (s : St) (args : List String) :
    (run_bridge_command w s args).2
      = { s with ctr := s.ctr + 1, invoked := s.invoked ++ [args] } := by
  unfold run_bridge_command
  cases w.launch s.ctr args <;> rfl

/-- The success and error counters of the row loop always sum to the number
of rows, whatever the world does and wherever exceptions strike. -/
theorem process_items_counts (w : World) (avail : List String)
    (items : List Item) : ∀ s : St,
    (process_items w s avail items).1 + (process_items w s avail items).2.1
      = items.length := by
  induction items with
  | nil => intro s; simp [process_items]
  | cons item rest ih =>
    intro s
    have hrest := ih (process_item w s avail item).2
    simp only [process_items]
    cases h : (process_item w s avail item).1 <;> simp [h] <;> omega

/-- C1: whenever `process_data` returns a statistics dict (rather than one
of the two early-error dicts), its `success` and `errors` counters sum
exactly to `total`, which is the number of input rows — for any filesystem,
any launch behaviour, and any placement of caught per-row exceptions. -/
theorem process_data_success_plus_errors (w : World) (s : St)
    (ezd_template : String) (data_items : List Item)
    (output_path : Option String) (t su er : Nat)
    (h : (process_data w s ezd_template data_items output_path).1
          = .stats t su er) :
    su + er = t := by
  unfold process_data at h
  by_cases hfs : w.fs ezd_template = false
  · simp [hfs] at h
  · simp only [hfs, if_false] at h
    by_cases hop : (open_ezd_file w s ezd_template).1 = false
    · simp [hop] at h
    · simp only [hop, if_false] at h
      obtain ⟨ht, hsu, her⟩ := ProcResult.stats.inj h
      subst ht; subst hsu; subst her
      exact process_items_counts w _ data_items _

/-- Witness for C1 on a concrete batch of two rows, one succeeding and one
raising: 1 success + 1 error = 2 rows. -/
theorem process_data_success_plus_errors_witness : (1 : Nat) + 1 = 2 :=
  process_data_success_plus_errors wAllOk st0 "tmpl"
    [.good [("id", "1"), ("a", "x")], .raises [] "boom"] none 2 1 1 (by decide)

/-- C2: when the template path does not exist, `process_data` returns the
explicit "Template file not found" error dict (a non-empty error string,
no row statistics) and leaves the state — in particular the launch trace —
completely untouched: no process is invoked. -/
theorem process_data_template_missing (w : World) (s : St)
    (ezd_template : String) (data_items : List Item)
    (output_path : Option String) (h : w.fs ezd_template = false) :
    process_data w s ezd_template data_items output_path
        = (.err "Template file not found", s)
      ∧ "Template file not found" ≠ "" := by
  refine ⟨?_, by decide⟩
  simp [process_data, h]

/-- Witness for C2: a concrete batch against a missing template. -/
theorem process_data_template_missing_witness :
    process_data wMissing st0 "tmpl" [.good [("Serial", "SN1")]] none
        = (.err "Template file not found", st0)
      ∧ "Template file not found" ≠ "" :=
  process_data_template_missing wMissing st0 "tmpl"
    [.good [("Serial", "SN1")]] none rfl

/-- C3: when the template exists but the open invocation is not classified
as a success, `process_data` aborts with the explicit "Failed to open
template file" error dict before any row is touched: the only launch added
to the trace is the single `open` command — no `update`, `mark`, `list` or
`save` — and no statistics dict is produced. -/
theorem process_data_open_failed (w : World) (s : St)
    (ezd_template : String) (data_items : List Item)
    (output_path : Option String)
    (hfs : w.fs ezd_template = true)
    (hcl : strContains
        (lowerStr (run_bridge_command w s ["open", ezd_template]).1.output)
        "successfully" = false) :
    process_data w s ezd_template data_items output_path
        = (.err "Failed to open template file",
           (run_bridge_command w s ["open", ezd_template]).2)
      ∧ (run_bridge_command w s ["open", ezd_template]).2.invoked
          = s.invoked ++ [["open", ezd_template]] := by
  constructor
  · have hop : open_ezd_file w s ezd_template
        = (false, (run_bridge_command w s ["open", ezd_template]).2) := by
      simp [open_ezd_file, hfs, hcl]
    simp [process_data, hfs, hop]
  · simp [run_bridge_command_snd]

/-- Witness for C3: the engine answers "nope", so the open is rejected. -/
theorem process_data_open_failed_witness :
    process_data wNope st0 "tmpl" [.good [("Serial", "SN1")]] none
        = (.err "Failed to open template file",
           (run_bridge_command wNope st0 ["open", "tmpl"]).2)
      ∧ (run_bridge_command wNope st0 ["open", "tmpl"]).2.invoked
          = st0.invoked ++ [["open", "tmpl"]] :=
  process_data_open_failed wNope st0 "tmpl" [.good [("Serial", "SN1")]] none
    rfl (by decide)

/-- C5: with no session open (`current_ezd_file` unset), `update_text`,
`mark`, `save_ezd_file`, `list_entities` and `red_light` all return their
failure value (`false`, or `[]` for `list_entities`) and leave the state —
in particular the launch trace — untouched: no process is invoked. -/
theorem no_session_all_fail (w : World) (s : St)
    (entity_name new_text output_path x y : String)
    (me : Option String) (h : s.current_ezd_file = none) :
    update_text w s entity_name new_text = (false, s)
    ∧ mark w s me = (false, s)
    ∧ save_ezd_file w s output_path = (false, s)
    ∧ list_entities w s = ([], s)
    ∧ red_light w s x y = (false, s) := by
  refine ⟨?_, ?_, ?_, ?_, ?_⟩ <;>
    simp [update_text, mark, save_ezd_file, list_entities, red_light, h]

/-- Witness for C5 on a fresh bridge object. -/
theorem no_session_all_fail_witness :
    update_text wAllOk st0 "Serial" "SN1" = (false, st0)
    ∧ mark wAllOk st0 (some "Serial") = (false, st0)
    ∧ save_ezd_file wAllOk st0 "out.ezd" = (false, st0)
    ∧ list_entities wAllOk st0 = ([], st0)
    ∧ red_light wAllOk st0 "1.0" "2.0" = (false, st0) :=
  no_session_all_fail wAllOk st0 "Serial" "SN1" "out.ezd" "1.0" "2.0"
    (some "Serial") rfl

/-- C9: when the process launch itself raises, `_run_bridge_command`
catches the exception and returns a result with return code `-1`,
`success = false`, empty output, and the exception message as the error
text; the state still records the attempted invocation. -/
theorem run_bridge_command_launch_exn (w : World) (s : St)
    (args : List String) (msg : String)
    (h : w.launch s.ctr args = .exn msg) :
    run_bridge_command w s args
      = ({ output := "", error := msg, return_code := -1, success := false },
         { s with ctr := s.ctr + 1, invoked := s.invoked ++ [args] }) := by
  simp [run_bridge_command, h]

/-- Witness for C9: a launcher that always raises "boom". -/
theorem run_bridge_command_launch_exn_witness :
    run_bridge_command wExn st0 ["info"]
      = ({ output := "", error := "boom", return_code := -1, success := false },
         { st0 with ctr := st0.ctr + 1, invoked := st0.invoked ++ [["info"]] }) :=
  run_bridge_command_launch_exn wExn st0 ["info"] "boom" rfl

/-- A match that begins at the head needs at least the pattern's length. -/
theorem beginsWith_length_le (sep : List Char) :
    ∀ z : List Char, beginsWith sep z = true → sep.length ≤ z.length := by
  induction sep with
  | nil => intro z _; simp
  | cons a sep' ih =>
    intro z h
    cases z with
    | nil => simp [beginsWith] at h
    | cons b z' =>
      simp only [beginsWith, Bool.and_eq_true] at h
      simpa using ih z' h.2

/-- Appending an all-whitespace tail never creates or destroys a match of
a whitespace-free pattern at the head. -/
theorem beginsWith_append_ws (sep wsuf : List Char)
    (hsep : ∀ c ∈ sep, c.isWhitespace = false)
    (hsuf : ∀ c ∈ wsuf, c.isWhitespace = true) :
    ∀ y : List Char, beginsWith sep (y ++ wsuf) = beginsWith sep y := by
  induction sep with
  | nil => intro y; rfl
  | cons a sep' ih =>
    intro y
    cases y with
    | nil =>
      simp only [List.nil_append]
      cases wsuf with
      | nil => rfl
      | cons d w' =>
        have hne : a ≠ d := by
          intro h
          have ha := hsep a (by simp)
          have hd := hsuf d (by simp)
          rw [h, hd] at ha
          simp at ha
        simp [beginsWith, beq_eq_false_iff_ne.mpr hne]
    | cons b y' =>
      simp only [List.cons_append, beginsWith]
      congr 1
      exact ih (fun c hc => hsep c (List.mem_cons_of_mem a hc)) y'

/-- A pattern whose head is not whitespace never occurs inside an
all-whitespace list. -/
theorem splitOnceL_all_ws_none (c₀ : Char) (sep' : List Char)
    (hc₀ : c₀.isWhitespace = false) :
    ∀ wsuf, (∀ c ∈ wsuf, c.isWhitespace = true) →
      splitOnceL (c₀ :: sep') wsuf = none := by
  intro wsuf
  induction wsuf with
  | nil => intro _; rfl
  | cons d w' ih =>
    intro h
    have hne : c₀ ≠ d := by
      intro he
      have hd := h d (by simp)
      rw [he, hd] at hc₀
      simp at hc₀
    simp only [splitOnceL, beginsWith, beq_eq_false_iff_ne.mpr hne,
      Bool.false_and, Bool.false_eq_true, if_false]
    rw [ih (fun c hc => h c (List.mem_cons_of_mem d hc))]

/-- Splitting once on a whitespace-free pattern ignores an all-whitespace
suffix: the first occurrence, if any, lies before the suffix. -/
theorem splitOnceL_append_ws (sep wsuf : List Char)
    (hsep : ∀ c ∈ sep, c.isWhitespace = false) (hne : sep ≠ [])
    (hsuf : ∀ c ∈ wsuf, c.isWhitespace = true) :
    ∀ y, splitOnceL sep (y ++ wsuf)
      = match splitOnceL sep y with
        | some (pre, post) => some (pre, post ++ wsuf)
        | none => none := by
  obtain ⟨c₀, sep', rfl⟩ : ∃ c₀ sep', sep = c₀ :: sep' := by
    cases sep with
    | nil => exact absurd rfl hne
    | cons a b => exact ⟨a, b, rfl⟩
  intro y
  induction y with
  | nil =>
    simp only [List.nil_append, splitOnceL]
    rw [splitOnceL_all_ws_none c₀ sep' (hsep c₀ (by simp)) wsuf hsuf]
  | cons c y' ih =>
    simp only [List.cons_append, splitOnceL, List.append_eq]
    rw [show c :: (y' ++ wsuf) = (c :: y') ++ wsuf from rfl,
      beginsWith_append_ws (c₀ :: sep') wsuf hsep hsuf (c :: y')]
    cases hb : beginsWith (c₀ :: sep') (c :: y') with
    | true =>
      simp only [if_true]
      rw [show ((c :: y') ++ wsuf).drop (c₀ :: sep').length
            = (c :: y').drop (c₀ :: sep').length ++ wsuf from
          List.drop_append_of_le_length (beginsWith_length_le _ _ hb)]
    | false =>
      simp only [Bool.false_eq_true, if_false]
      rw [ih]
      cases splitOnceL (c₀ :: sep') y' with
      | none => rfl
      | some pr => cases pr with
        | mk pre post => rfl

/-- Splitting once on a pattern with non-whitespace head walks through an
all-whitespace prefix, which ends up on the left of the split. -/
theorem splitOnceL_ws_append (c₀ : Char) (sep' : List Char)
    (hc₀ : c₀.isWhitespace = false) (wpre : List Char)
    (hpre : ∀ c ∈ wpre, c.isWhitespace = true) (y : List Char) :
    splitOnceL (c₀ :: sep') (wpre ++ y)
      = match splitOnceL (c₀ :: sep') y with
        | some (pre, post) => some (wpre ++ pre, post)
        | none => none := by
  induction wpre with
  | nil =>
    simp only [List.nil_append]
    cases splitOnceL (c₀ :: sep') y with
    | none => rfl
    | some pr => cases pr with
      | mk pre post => rfl
  | cons d wpre' ih =>
    have hne : c₀ ≠ d := by
      intro he
      have hd := hpre d (by simp)
      rw [he, hd] at hc₀
      simp at hc₀
    simp only [List.cons_append, splitOnceL, beginsWith, List.append_eq,
      beq_eq_false_iff_ne.mpr hne, Bool.false_and, Bool.false_eq_true, if_false]
    rw [ih (fun c hc => hpre c (List.mem_cons_of_mem d hc))]
    cases splitOnceL (c₀ :: sep') y with
    | none => rfl
    | some pr => cases pr with
      | mk pre post => rfl

/-- Dropping while `p` holds skips an entire prefix on which `p` holds. -/
theorem dropWhile_all_append (p : Char → Bool) (wpre : List Char)
    (h : ∀ c ∈ wpre, p c = true) (z : List Char) :
    (wpre ++ z).dropWhile p = z.dropWhile p := by
  induction wpre with
  | nil => rfl
  | cons d w' ih =>
    simp only [List.cons_append, List.dropWhile, h d (by simp)]
    exact ih (fun c hc => h c (List.mem_cons_of_mem d hc))

/-- When something survives `dropWhile p` on `z`, appending to `z` only
appends to the survivor. -/
theorem dropWhile_append_of_ne_nil (p : Char → Bool) :
    ∀ z w' : List Char, z.dropWhile p ≠ [] →
      (z ++ w').dropWhile p = z.dropWhile p ++ w' := by
  intro z
  induction z with
  | nil => intro w' h; exact absurd rfl h
  | cons a t ih =>
    intro w' h
    cases hp : p a with
    | true =>
      simp only [List.dropWhile, hp] at h ⊢
      exact ih w' h
    | false => simp only [List.cons_append, List.dropWhile, hp, List.append_eq]

/-- `dropWhile` is idempotent. -/
theorem dropWhile_dropWhile (p : Char → Bool) (l : List Char) :
    (l.dropWhile p).dropWhile p = l.dropWhile p := by
  induction l with
  | nil => rfl
  | cons a t ih =>
    cases hp : p a with
    | true => simp only [List.dropWhile, hp]; exact ih
    | false => simp only [List.dropWhile, hp]

/-- Stripping ignores an all-whitespace prefix. -/
theorem stripL_ws_prefix (wpre z : List Char)
    (h : ∀ c ∈ wpre, c.isWhitespace = true) :
    stripL (wpre ++ z) = stripL z := by
  unfold stripL
  rw [dropWhile_all_append _ wpre h]

/-- Stripping ignores an all-whitespace suffix. -/
theorem stripL_ws_suffix (z wsuf : List Char)
    (h : ∀ c ∈ wsuf, c.isWhitespace = true) :
    stripL (z ++ wsuf) = stripL z := by
  cases hz : z.dropWhile Char.isWhitespace with
  | nil =>
    have hall : ∀ c ∈ z, c.isWhitespace = true :=
      List.dropWhile_eq_nil_iff.mp hz
    have h2 : (z ++ wsuf).dropWhile Char.isWhitespace = [] := by
      rw [List.dropWhile_eq_nil_iff]
      intro c hc
      rcases List.mem_append.mp hc with h' | h'
      exacts [hall c h', h c h']
    unfold stripL
    rw [hz, h2]
  | cons c t =>
    unfold stripL
    rw [dropWhile_append_of_ne_nil _ z wsuf (by rw [hz]; simp),
      List.reverse_append,
      dropWhile_all_append _ _ (fun c hc => h c (List.mem_reverse.mp hc))]

/-- C10: `mark` with the empty string as entity name behaves identically
to `mark` with no entity name: Python `if entity_name:` is false for both
`None` and `""`, so both issue the bare argument-less `mark` command. -/
theorem mark_empty_name_eq_mark_none (w : World) (s : St) :
    mark w s (some "") = mark w s none := by
  cases h : s.current_ezd_file <;> simp [mark, mark_command, h]

/-- Trimming the text standing before the first occurrence of a
whitespace-free pattern is unaffected by first stripping the text. -/
theorem stripL_beforeFirst_stripL (c₀ : Char) (sep' : List Char)
    (hnws : ∀ c ∈ c₀ :: sep', c.isWhitespace = false) (x : List Char) :
    stripL (beforeFirst (c₀ :: sep') (stripL x))
      = stripL (beforeFirst (c₀ :: sep') x) := by
  have hc₀ : c₀.isWhitespace = false := hnws c₀ (by simp)
  have hpre : ∀ c ∈ x.takeWhile Char.isWhitespace, c.isWhitespace = true :=
    fun c hc => List.mem_takeWhile_imp hc
  have hx : x.takeWhile Char.isWhitespace ++ x.dropWhile Char.isWhitespace = x :=
    List.takeWhile_append_dropWhile _ _
  have hsuf : ∀ c ∈ ((x.dropWhile Char.isWhitespace).reverse.takeWhile
      Char.isWhitespace).reverse, c.isWhitespace = true :=
    fun c hc => List.mem_takeWhile_imp (List.mem_reverse.mp hc)
  have hu2 : stripL x ++ ((x.dropWhile Char.isWhitespace).reverse.takeWhile
        Char.isWhitespace).reverse = x.dropWhile Char.isWhitespace := by
    unfold stripL
    rw [← List.reverse_append, List.takeWhile_append_dropWhile,
      List.reverse_reverse]
  have hRHS : stripL (beforeFirst (c₀ :: sep') x)
      = stripL (beforeFirst (c₀ :: sep') (x.dropWhile Char.isWhitespace)) := by
    conv_lhs => rw [← hx]
    unfold beforeFirst
    rw [splitOnceL_ws_append c₀ sep' hc₀ _ hpre]
    cases splitOnceL (c₀ :: sep') (x.dropWhile Char.isWhitespace) with
    | none => exact stripL_ws_prefix _ _ hpre
    | some pr =>
      cases pr with
      | mk pre post => exact stripL_ws_prefix _ _ hpre
  rw [hRHS]
  conv_rhs => rw [← hu2]
  unfold beforeFirst
  rw [splitOnceL_append_ws (c₀ :: sep') _ hnws (by simp) hsuf]
  cases splitOnceL (c₀ :: sep') (stripL x) with
  | none => exact (stripL_ws_suffix _ _ hsuf).symm
  | some pr =>
    cases pr with
    | mk pre post => rfl

/-- The per-line extraction of the code agrees with the specification's
description of it (modulo the initial strip, which both sides perform):
the code's extra strip of the text after `]` is immaterial. -/
theorem parse_line_eq_spec_line (line : List Char) :
    parse_line line = spec_line line := by
  unfold parse_line spec_line
  cases hc : beginsWith ['['] (stripL line) && containsL [']'] (stripL line) with
  | false => simp [hc]
  | true =>
    simp only [hc, if_true]
    cases hso : splitOnceL [']'] (stripL line) with
    | none => rfl
    | some pr =>
      cases pr with
      | mk pre afterBracket =>
        have : stripL (beforeFirst ("(Type:".data) (stripL afterBracket))
            = stripL (beforeFirst ("(Type:".data) afterBracket) :=
          stripL_beforeFirst_stripL '(' "Type:".data (by decide) afterBracket
        simp only [beforeFirst] at this
        simpa using this

/-- C4 counterexample: the one-line output " [0] Serial (Type: Text)" does
not start with `[` (it starts with a space), yet the parser extracts
"Serial" from it — the code strips each line before testing its first
character, so a non-matching line contributes a name after all. -/
theorem parse_entities_unstripped_counterexample :
    beginsWith ['['] " [0] Serial (Type: Text)".data = false
    ∧ parse_entities " [0] Serial (Type: Text)" = ["Serial"] := by decide

/-- C4 (amended): the parser returns exactly the names extracted from
lines whose whitespace-stripped form starts with `[` and contains `]`,
taking the text after the first `]`, splitting on the literal `(Type:`,
and trimming the part before it, in order with duplicates kept; other
lines contribute nothing; empty output yields `[]`; and the two example
lines parse to `["Serial", "QRCode"]`. -/
theorem parse_entities_matches_spec :
    (∀ out : String, parse_entities out = parse_entities_spec out)
    ∧ parse_entities "" = []
    ∧ parse_entities "[0] Serial (Type: Text)\n[1] QRCode (Type: Barcode)"
        = ["Serial", "QRCode"] := by
  refine ⟨fun out => ?_, by decide, by decide⟩
  unfold parse_entities parse_entities_spec
  rw [funext parse_line_eq_spec_line]

/-- C6: with a session open, `update_text` reports success iff the
lower-cased engine output contains "updated successfully", and `mark`
reports success iff it contains "completed"; the two example outputs
classify as the claim states. -/
theorem update_and_mark_classifiers (w : World) (s : St) (f : String)
    (entity_name new_text : String) (me : Option String)
    (out errText : String) (rc : Int)
    (h : s.current_ezd_file = some f) :
    (w.launch s.ctr ["update", entity_name, new_text] = .ok out errText rc →
      (update_text w s entity_name new_text).1
        = strContains (lowerStr out) "updated successfully")
    ∧ (w.launch s.ctr (mark_command me) = .ok out errText rc →
      (mark w s me).1 = strContains (lowerStr out) "completed")
    ∧ strContains (lowerStr "Entity updated successfully for field X")
        "updated successfully" = true
    ∧ strContains (lowerStr "Update failed: entity not found")
        "updated successfully" = false := by
  refine ⟨fun hl => ?_, fun hl => ?_, by decide, by decide⟩
  · simp [update_text, run_bridge_command, h, hl]
  · simp [mark, run_bridge_command, h, hl]

/-- Witness for C6: a concrete update call whose output lacks the phrase. -/
theorem update_and_mark_classifiers_witness :
    (update_text wAllOk stOpen "Serial" "SN1").1
      = strContains (lowerStr "Opened successfully; marking completed")
          "updated successfully" :=
  (update_and_mark_classifiers wAllOk stOpen "cur.ezd" "Serial" "SN1" none
      "Opened successfully; marking completed" "" 0 rfl).1 rfl

/-- C7 counterexample: the output "File successfully saved" contains the
substring "successfully", yet `save_ezd_file` classifies it as a failure —
the code demands the longer substring "saved successfully". -/
theorem save_classifier_counterexample :
    strContains (lowerStr "File successfully saved") "successfully" = true
    ∧ (save_ezd_file
        { fs := fun _ => true,
          launch := fun _ _ => .ok "File successfully saved" "" 0 }
        stOpen "out.ezd").1 = false := by decide

/-- C7 (amended): with their preconditions met, `open_ezd_file` is
classified successful iff the lower-cased output contains "successfully",
`save_ezd_file` iff it contains "saved successfully", and `red_light` iff
it contains "positioned successfully". -/
theorem open_save_red_classifiers (w : World) (s : St)
    (f path out errText x y : String) (rc : Int)
    (h : s.current_ezd_file = some f) :
    (w.fs path = true → w.launch s.ctr ["open", path] = .ok out errText rc →
      (open_ezd_file w s path).1 = strContains (lowerStr out) "successfully")
    ∧ (w.launch s.ctr ["save", path] = .ok out errText rc →
      (save_ezd_file w s path).1
        = strContains (lowerStr out) "saved successfully")
    ∧ (w.launch s.ctr ["red", x, y] = .ok out errText rc →
      (red_light w s x y).1
        = strContains (lowerStr out) "positioned successfully") := by
  refine ⟨fun hfs hl => ?_, fun hl => ?_, fun hl => ?_⟩
  · cases hc : strContains (lowerStr out) "successfully" <;>
      simp [open_ezd_file, run_bridge_command, hfs, hl, hc]
  · simp [save_ezd_file, run_bridge_command, h, hl]
  · simp [red_light, run_bridge_command, h, hl]

/-- Witness for C7: a save whose output lacks "saved successfully". -/
theorem open_save_red_classifiers_witness :
    (save_ezd_file wAllOk stOpen "out.ezd").1
      = strContains (lowerStr "Opened successfully; marking completed")
          "saved successfully" :=
  ((open_save_red_classifiers wAllOk stOpen "cur.ezd" "out.ezd"
      "Opened successfully; marking completed" "" "1.0" "2.0" 0 rfl).2.1) rfl

/-- C8: `open_ezd_file` fails fast, without invoking the process, when the
path does not exist (returning the state unchanged), and in every case the
resulting session path is the given path exactly when the call reports
success, and the prior session path otherwise. -/
theorem open_ezd_file_session_frame (w : World) (s : St) (path : String) :
    (w.fs path = false → open_ezd_file w s path = (false, s))
    ∧ (∀ b s', open_ezd_file w s path = (b, s') →
        s'.current_ezd_file = if b then some path else s.current_ezd_file) := by
  constructor
  · intro h
    simp [open_ezd_file, h]
  · intro b s' h
    by_cases hfs : w.fs path = false
    · have hopen : open_ezd_file w s path = (false, s) := by
        simp [open_ezd_file, hfs]
      rw [hopen] at h
      injection h with hb hs
      subst hb
      subst hs
      simp
    · have hfs' : w.fs path = true := by
        cases hval : w.fs path with
        | false => exact absurd hval hfs
        | true => rfl
      cases hc : strContains
          (lowerStr (run_bridge_command w s ["open", path]).1.output)
          "successfully" with
      | true =>
        have hopen : open_ezd_file w s path
            = (true, { (run_bridge_command w s ["open", path]).2 with
                current_ezd_file := some path }) := by
          simp [open_ezd_file, hfs', hc]
        rw [hopen] at h
        injection h with hb hs
        subst hb
        subst hs
        simp
      | false =>
        have hopen : open_ezd_file w s path
            = (false, (run_bridge_command w s ["open", path]).2) := by
          simp [open_ezd_file, hfs', hc]
        rw [hopen] at h
        injection h with hb hs
        subst hb
        subst hs
        simp [run_bridge_command_snd]

/-- Witness for C8: opening a missing path leaves the open session as is. -/
theorem open_ezd_file_session_frame_witness :
    open_ezd_file wMissing stOpen "new.ezd" = (false, stOpen) :=
  (open_ezd_file_session_frame wMissing stOpen "new.ezd").1 rfl

end EzcadBridge
